import Mathlib

/-!
Verification of the papermark asynchronous download/notification subsystem.

The definitions below are shallow embeddings of the TypeScript source:
* lib/files/bulk-download-presign.ts (S3 URL parsing / presigned-URL minting),
* pages/api/teams/[teamId]/datarooms/[id]/download/jobs.ts (owner job listing),
* pages/api/links/download/parts endpoint (parts download redirect),
* pages/api/jobs download-batch endpoint (Lambda dispatch),
* app/(ee)/api/links/[id]/upload/route.ts (notification debouncer),
* lib/trigger/dataroom-upload-notification.ts (fire-time notification task),
* lib/trigger/convert-files.ts (DOCX sanitize-and-retry fallback).

JavaScript strings are modelled as Lean strings or as lists of characters;
exceptions are modelled with Option / Except; the surrounding I/O (database
lookups, HTTP fetches, the Lambda invocation) is passed in as explicit
parameters so each handler becomes a pure function of its inputs.
-/

/-! ## Character-list string utilities (model of JS String.split / join /
    decodeURIComponent on single-character separators) -/

/-- Model of JS String.prototype.split with a single-character separator:
always returns a non-empty list of separator-free pieces. -/
def splitOnChar (sep : Char) : List Char → List (List Char)
  | [] => [[]]
  | c :: rest =>
    match splitOnChar sep rest with
    | [] => [[c]]
    | s :: ss => if c = sep then [] :: s :: ss else (c :: s) :: ss

/-- Model of JS Array.prototype.join with a single-character separator. -/
def joinChar (sep : Char) : List (List Char) → List Char
  | [] => []
  | [s] => s
  | s :: s₂ :: ss => s ++ sep :: joinChar sep (s₂ :: ss)

theorem splitOnChar_cons (sep c : Char) (l : List Char) :
    splitOnChar sep (c :: l) =
      match splitOnChar sep l with
      | [] => [[c]]
      | s :: ss => if c = sep then [] :: s :: ss else (c :: s) :: ss := rfl

theorem splitOnChar_ne_nil (sep : Char) (l : List Char) : splitOnChar sep l ≠ [] := by
  cases l with
  | nil => simp [splitOnChar]
  | cons c rest =>
    simp only [splitOnChar]
    cases h : splitOnChar sep rest with
    | nil => simp
    | cons s ss =>
      by_cases hc : c = sep <;> simp [hc]

theorem splitOnChar_of_not_mem {sep : Char} {l : List Char} (h : sep ∉ l) :
    splitOnChar sep l = [l] := by
  induction l with
  | nil => rfl
  | cons c rest ih =>
    have hc : c ≠ sep := fun hcs => h (hcs ▸ List.mem_cons_self c rest)
    have hrest : sep ∉ rest := fun hm => h (List.mem_cons_of_mem c hm)
    simp only [splitOnChar, ih hrest]
    simp [hc]

theorem splitOnChar_append (sep : Char) (xs ys : List Char) :
    splitOnChar sep (xs ++ sep :: ys) = splitOnChar sep xs ++ splitOnChar sep ys := by
  induction xs with
  | nil =>
    simp only [List.nil_append, splitOnChar]
    cases h : splitOnChar sep ys with
    | nil => exact absurd h (splitOnChar_ne_nil sep ys)
    | cons s ss => simp
  | cons c xs ih =>
    rw [List.cons_append, splitOnChar_cons, ih, splitOnChar_cons]
    cases h : splitOnChar sep xs with
    | nil => exact absurd h (splitOnChar_ne_nil sep xs)
    | cons s ss =>
      by_cases hc : c = sep <;> simp [hc]

theorem joinChar_splitOnChar (sep : Char) (l : List Char) :
    joinChar sep (splitOnChar sep l) = l := by
  induction l with
  | nil => rfl
  | cons c rest ih =>
    simp only [splitOnChar]
    cases h : splitOnChar sep rest with
    | nil => exact absurd h (splitOnChar_ne_nil sep rest)
    | cons s ss =>
      rw [h] at ih
      by_cases hc : c = sep
      · subst hc
        simp [joinChar, ih]
      · simp only [if_neg hc]
        cases ss with
        | nil => simpa [joinChar] using congrArg (c :: ·) ih
        | cons s₂ ss₂ => simpa [joinChar] using congrArg (c :: ·) ih

theorem mem_of_mem_splitOnChar {sep : Char} {l : List Char} {piece : List Char}
    (hp : piece ∈ splitOnChar sep l) {a : Char} (ha : a ∈ piece) : a ∈ l := by
  induction l generalizing piece with
  | nil =>
    simp only [splitOnChar, List.mem_singleton] at hp
    subst hp
    exact absurd ha (List.not_mem_nil a)
  | cons c rest ih =>
    rw [splitOnChar_cons] at hp
    split at hp
    · next heq => exact absurd heq (splitOnChar_ne_nil sep rest)
    · next s ss heq =>
      by_cases hc : c = sep
      · rw [if_pos hc] at hp
        rcases List.mem_cons.mp hp with h1 | h2
        · subst h1; exact absurd ha (List.not_mem_nil a)
        · exact List.mem_cons_of_mem c (ih (heq.symm ▸ h2) ha)
      · rw [if_neg hc] at hp
        rcases List.mem_cons.mp hp with h1 | h2
        · subst h1
          rcases List.mem_cons.mp ha with h3 | h4
          · exact h3 ▸ List.mem_cons_self c rest
          · exact List.mem_cons_of_mem c
              (ih (heq.symm ▸ List.mem_cons_self s ss) h4)
        · exact List.mem_cons_of_mem c
            (ih (heq.symm ▸ List.mem_cons_of_mem s h2) ha)

/-- Value of a hexadecimal digit character, as used by percent-decoding. -/
def hexVal (c : Char) : Option Nat :=
  if '0' ≤ c ∧ c ≤ '9' then some (c.toNat - '0'.toNat)
  else if 'a' ≤ c ∧ c ≤ 'f' then some (c.toNat - 'a'.toNat + 10)
  else if 'A' ≤ c ∧ c ≤ 'F' then some (c.toNat - 'A'.toNat + 10)
  else none

/-- Model of JS decodeURIComponent restricted to percent-escapes: a percent
sign must be followed by two hex digits (otherwise a URIError is thrown,
modelled by none); all other characters pass through unchanged. -/
def percentDecode : List Char → Option (List Char)
  | [] => some []
  | '%' :: h₁ :: h₂ :: rest =>
    match hexVal h₁, hexVal h₂, percentDecode rest with
    | some d₁, some d₂, some tail => some (Char.ofNat (16 * d₁ + d₂) :: tail)
    | _, _, _ => none
  | '%' :: _ => none
  | c :: rest =>
    match percentDecode rest with
    | some tail => some (c :: tail)
    | none => none

theorem percentDecode_of_not_mem {l : List Char} (h : '%' ∉ l) :
    percentDecode l = some l := by
  induction l with
  | nil => rfl
  | cons c rest ih =>
    have hc : c ≠ '%' := fun hcp => h (hcp ▸ List.mem_cons_self c rest)
    have hrest : '%' ∉ rest := fun hm => h (List.mem_cons_of_mem c hm)
    rw [percentDecode.eq_4 c rest (fun _ _ _ heq _ => hc heq) hc, ih hrest]

/-- Sequential percent-decoding of a list of path segments (model of
`.map(decodeURIComponent)`, where the first URIError aborts). -/
def percentDecodeAll : List (List Char) → Option (List (List Char))
  | [] => some []
  | s :: ss => do
    let d ← percentDecode s
    let ds ← percentDecodeAll ss
    pure (d :: ds)

theorem percentDecodeAll_of_not_mem {ss : List (List Char)}
    (h : ∀ s ∈ ss, '%' ∉ s) : percentDecodeAll ss = some ss := by
  induction ss with
  | nil => rfl
  | cons s ss ih =>
    have hs : '%' ∉ s := h s (List.mem_cons_self s ss)
    have hss : ∀ t ∈ ss, '%' ∉ t := fun t ht => h t (List.mem_cons_of_mem s ht)
    simp [percentDecodeAll, percentDecode_of_not_mem hs, ih hss]

/-! ## Presigned-Access Manager: S3 URL parsing and minting
    (source: lib/files/bulk-download-presign.ts) -/

/-- Structured S3 object reference, as in the source's S3KeyInfo. -/
structure S3KeyInfo where
  bucket : List Char
  key : List Char
  region : List Char
deriving DecidableEq, Repr

/-- The hostname / pathname decomposition that JS `new URL(...)` exposes.
The pathname includes its leading slash, exactly as in JS. -/
structure UrlParts where
  hostname : List Char
  pathname : List Char
deriving DecidableEq, Repr

/-- Model of the anchored regex match on the hostname
`s3.{region}.amazonaws.com` with a dot-free non-empty region capture:
the hostname must split on dots into exactly the four segments
s3 / region / amazonaws / com. -/
def pathStyleHostMatch (hostname : List Char) : Option (List Char) :=
  match splitOnChar '.' hostname with
  | [seg₀, r, seg₂, seg₃] =>
    if seg₀ = "s3".toList ∧ r ≠ [] ∧ seg₂ = "amazonaws".toList ∧ seg₃ = "com".toList then
      some r
    else none
  | _ => none

/-- Model of the anchored regex match on the hostname
`{bucket}.s3.{region}.amazonaws.com` (bucket capture greedy, hence made of
every dot segment before the final s3 / region / amazonaws / com). -/
def virtualHostMatch (hostname : List Char) : Option (List Char × List Char) :=
  match (splitOnChar '.' hostname).reverse with
  | seg₃ :: seg₂ :: r :: seg₁ :: bsegs =>
    if seg₃ = "com".toList ∧ seg₂ = "amazonaws".toList ∧ r ≠ [] ∧
        seg₁ = "s3".toList ∧ bsegs ≠ [] ∧ joinChar '.' bsegs.reverse ≠ [] then
      some (joinChar '.' bsegs.reverse, r)
    else none
  | _ => none

/-- Model of the anchored regex match on the hostname
`{bucket}.s3.amazonaws.com` (the region-omitted virtual-hosted shape). -/
def virtualNoRegionHostMatch (hostname : List Char) : Option (List Char) :=
  match (splitOnChar '.' hostname).reverse with
  | seg₂ :: seg₁ :: seg₀ :: bsegs =>
    if seg₂ = "com".toList ∧ seg₁ = "amazonaws".toList ∧ seg₀ = "s3".toList ∧
        bsegs ≠ [] ∧ joinChar '.' bsegs.reverse ≠ [] then
      some (joinChar '.' bsegs.reverse)
    else none
  | _ => none

/-- Embedding of parseS3PresignedUrl: tries the path-style hostname first,
then the virtual-hosted shape, then the region-omitted virtual-hosted shape
(defaulting the region to us-east-1), and fails otherwise. Path segments go
through decodeURIComponent exactly as in the source. -/
def parseS3PresignedUrl (url : UrlParts) : Option S3KeyInfo :=
  match pathStyleHostMatch url.hostname with
  | some region =>
    match splitOnChar '/' (url.pathname.drop 1) with
    | [] => none
    | p₀ :: rest =>
      match percentDecode p₀, percentDecodeAll rest with
      | some bucket, some segs => some ⟨bucket, joinChar '/' segs, region⟩
      | _, _ => none
  | none =>
    match virtualHostMatch url.hostname with
    | some (bucket, region) =>
      match percentDecode (url.pathname.drop 1) with
      | some key => some ⟨bucket, key, region⟩
      | none => none
    | none =>
      match virtualNoRegionHostMatch url.hostname with
      | some bucket =>
        match percentDecode (url.pathname.drop 1) with
        | some key => some ⟨bucket, key, "us-east-1".toList⟩
        | none => none
      | none => none

/-- Modelled from the spec: the URL shape produced for an object reference by
the external signing library (getSignedUrl of the AWS SDK, not part of this
repository) in path-style form, `https://s3.{region}.amazonaws.com/{bucket}/{key}`. -/
def mintPathStyleUrl (ref : S3KeyInfo) : UrlParts :=
  ⟨"s3".toList ++ '.' :: (ref.region ++ '.' :: ("amazonaws".toList ++ '.' :: "com".toList)),
   '/' :: (ref.bucket ++ '/' :: ref.key)⟩

/-- Modelled from the spec: the URL shape produced for an object reference by
the external signing library in virtual-hosted form,
`https://{bucket}.s3.{region}.amazonaws.com/{key}`. -/
def mintVirtualHostedUrl (ref : S3KeyInfo) : UrlParts :=
  ⟨ref.bucket ++
    '.' :: ("s3".toList ++ '.' :: (ref.region ++ '.' :: ("amazonaws".toList ++ '.' :: "com".toList))),
   '/' :: ref.key⟩

/-- Modelled from the spec: the region-omitted virtual-hosted URL shape
`https://{bucket}.s3.amazonaws.com/{key}`. -/
def mintVirtualNoRegionUrl (ref : S3KeyInfo) : UrlParts :=
  ⟨ref.bucket ++ '.' :: ("s3".toList ++ '.' :: ("amazonaws".toList ++ '.' :: "com".toList)),
   '/' :: ref.key⟩

/-- C1: for every object reference, parsing a URL in either supported shape
(path-style host `s3.{region}.amazonaws.com` with path `/{bucket}/{key}`, or
virtual-hosted host `{bucket}.s3.{region}.amazonaws.com` with path `/{key}`)
returns exactly that `{bucket, key, region}`, and a virtual-hosted URL whose
host omits the region parses with the fixed default region us-east-1, so
parse after mint round-trips for both shapes. Stated for well-formed S3
references: non-empty dot-free region, non-empty bucket without dot, slash
or percent (and not the literal bucket name s3, which would be read as a
path-style host), and a key without percent-escapes. -/
theorem parse_mint_round_trip_s3_urls (ref : S3KeyInfo)
    (hb : ref.bucket ≠ []) (hbdot : '.' ∉ ref.bucket) (hbslash : '/' ∉ ref.bucket)
    (hbpct : '%' ∉ ref.bucket) (hbs3 : ref.bucket ≠ "s3".toList)
    (hr : ref.region ≠ []) (hrdot : '.' ∉ ref.region) (hkpct : '%' ∉ ref.key) :
    parseS3PresignedUrl (mintPathStyleUrl ref) = some ref ∧
    parseS3PresignedUrl (mintVirtualHostedUrl ref) = some ref ∧
    (ref.region = "us-east-1".toList →
      parseS3PresignedUrl (mintVirtualNoRegionUrl ref) = some ref) := by
  obtain ⟨b, k, r⟩ := ref
  simp only at hb hbdot hbslash hbpct hbs3 hr hrdot hkpct
  have hs3 : ('.' : Char) ∉ "s3".toList := by decide
  have hama : ('.' : Char) ∉ "amazonaws".toList := by decide
  have hcom : ('.' : Char) ∉ "com".toList := by decide
  refine ⟨?_, ?_, ?_⟩
  · have hsplitHost : splitOnChar '.' (mintPathStyleUrl ⟨b, k, r⟩).hostname
        = ["s3".toList, r, "amazonaws".toList, "com".toList] := by
      show splitOnChar '.'
          ("s3".toList ++ '.' :: (r ++ '.' :: ("amazonaws".toList ++ '.' :: "com".toList)))
        = _
      rw [splitOnChar_append, splitOnChar_append, splitOnChar_append,
          splitOnChar_of_not_mem hs3, splitOnChar_of_not_mem hrdot,
          splitOnChar_of_not_mem hama, splitOnChar_of_not_mem hcom]
      rfl
    have hmatch : pathStyleHostMatch (mintPathStyleUrl ⟨b, k, r⟩).hostname = some r := by
      unfold pathStyleHostMatch
      rw [hsplitHost]
      simp [hr]
    have hkeyPieces : ∀ s ∈ splitOnChar '/' k, '%' ∉ s :=
      fun s hs hmem => hkpct (mem_of_mem_splitOnChar hs hmem)
    have hsplitPath : splitOnChar '/' ((mintPathStyleUrl ⟨b, k, r⟩).pathname.drop 1)
        = b :: splitOnChar '/' k := by
      show splitOnChar '/' (b ++ '/' :: k) = _
      rw [splitOnChar_append, splitOnChar_of_not_mem hbslash]
      rfl
    unfold parseS3PresignedUrl
    rw [hmatch, hsplitPath]
    simp [percentDecode_of_not_mem hbpct, percentDecodeAll_of_not_mem hkeyPieces,
      joinChar_splitOnChar]
  · have hsplitHostV : splitOnChar '.' (mintVirtualHostedUrl ⟨b, k, r⟩).hostname
        = [b, "s3".toList, r, "amazonaws".toList, "com".toList] := by
      show splitOnChar '.'
          (b ++ '.' :: ("s3".toList ++ '.' :: (r ++ '.' :: ("amazonaws".toList ++ '.' :: "com".toList))))
        = _
      rw [splitOnChar_append, splitOnChar_append, splitOnChar_append, splitOnChar_append,
          splitOnChar_of_not_mem hbdot, splitOnChar_of_not_mem hs3,
          splitOnChar_of_not_mem hrdot, splitOnChar_of_not_mem hama,
          splitOnChar_of_not_mem hcom]
      rfl
    have hpathNone : pathStyleHostMatch (mintVirtualHostedUrl ⟨b, k, r⟩).hostname = none := by
      unfold pathStyleHostMatch
      rw [hsplitHostV]
    have hvmatch : virtualHostMatch (mintVirtualHostedUrl ⟨b, k, r⟩).hostname = some (b, r) := by
      unfold virtualHostMatch
      rw [hsplitHostV]
      simp [hr, hb, joinChar]
    unfold parseS3PresignedUrl
    rw [hpathNone, hvmatch]
    simp [mintVirtualHostedUrl, percentDecode_of_not_mem hkpct]
  · intro hreg
    have hbs3x : b ≠ ['s', '3'] := by simpa using hbs3
    have hsplitHostN : splitOnChar '.' (mintVirtualNoRegionUrl ⟨b, k, r⟩).hostname
        = [b, "s3".toList, "amazonaws".toList, "com".toList] := by
      show splitOnChar '.'
          (b ++ '.' :: ("s3".toList ++ '.' :: ("amazonaws".toList ++ '.' :: "com".toList)))
        = _
      rw [splitOnChar_append, splitOnChar_append, splitOnChar_append,
          splitOnChar_of_not_mem hbdot, splitOnChar_of_not_mem hs3,
          splitOnChar_of_not_mem hama, splitOnChar_of_not_mem hcom]
      rfl
    have hpathNoneN : pathStyleHostMatch (mintVirtualNoRegionUrl ⟨b, k, r⟩).hostname = none := by
      unfold pathStyleHostMatch
      rw [hsplitHostN]
      simp [hbs3x]
    have hvNoneN : virtualHostMatch (mintVirtualNoRegionUrl ⟨b, k, r⟩).hostname = none := by
      unfold virtualHostMatch
      rw [hsplitHostN]
      simp
    have hnrmatch : virtualNoRegionHostMatch (mintVirtualNoRegionUrl ⟨b, k, r⟩).hostname
        = some b := by
      unfold virtualNoRegionHostMatch
      rw [hsplitHostN]
      simp [hb, joinChar]
    simp only at hreg
    subst hreg
    unfold parseS3PresignedUrl
    rw [hpathNoneN, hvNoneN, hnrmatch]
    simp [mintVirtualNoRegionUrl, percentDecode_of_not_mem hkpct]

/-- Witness for C1 at the concrete reference
bucket1 / exports/x.zip / us-east-1. -/
theorem parse_mint_round_trip_s3_urls_witness :
    parseS3PresignedUrl
        (mintPathStyleUrl ⟨"bucket1".toList, "exports/x.zip".toList, "us-east-1".toList⟩)
      = some ⟨"bucket1".toList, "exports/x.zip".toList, "us-east-1".toList⟩ ∧
    parseS3PresignedUrl
        (mintVirtualHostedUrl ⟨"bucket1".toList, "exports/x.zip".toList, "us-east-1".toList⟩)
      = some ⟨"bucket1".toList, "exports/x.zip".toList, "us-east-1".toList⟩ ∧
    (("us-east-1".toList : List Char) = "us-east-1".toList →
      parseS3PresignedUrl
          (mintVirtualNoRegionUrl ⟨"bucket1".toList, "exports/x.zip".toList, "us-east-1".toList⟩)
        = some ⟨"bucket1".toList, "exports/x.zip".toList, "us-east-1".toList⟩) :=
  parse_mint_round_trip_s3_urls ⟨"bucket1".toList, "exports/x.zip".toList, "us-east-1".toList⟩
    (by decide) (by decide) (by decide) (by decide) (by decide) (by decide) (by decide)
    (by decide)

/-! ## Job Store records and the owner job listing
    (source: pages/api/teams/[teamId]/datarooms/[id]/download/jobs.ts) -/

/-- Download job record as read back from the Redis job store. Timestamps are
epoch milliseconds; optional fields may be absent exactly where the handlers
guard for that. -/
structure DownloadJob where
  userId : String
  linkId : String
  viewerEmail : Option String
  teamId : Option String
  status : String
  createdAt : Int
  expiresAt : Option Int
  downloadUrls : Option (List String)
  downloadS3Keys : Option (List S3KeyInfo)
deriving Repr

/-- Embedding of the per-job visibility filter of the owner job listing
(jobs.ts lines 55-76): own PENDING/PROCESSING always, own COMPLETED only
while unexpired (and only when an expiry was stamped), own FAILED only
within the last hour, everything else hidden. -/
def jobVisibleToUser (userId : String) (now : Int) (job : DownloadJob) : Bool :=
  if job.userId = userId then
    if job.status = "PENDING" || job.status = "PROCESSING" then true
    else if job.status = "COMPLETED" then
      match job.expiresAt with
      | some e => decide (now < e)
      | none => false
    else if job.status = "FAILED" then decide (now - 60 * 60 * 1000 < job.createdAt)
    else false
  else false

/-- The filtered list the owner listing returns before URL refresh. -/
def visibleJobs (userId : String) (now : Int) (jobs : List DownloadJob) : List DownloadJob :=
  jobs.filter (jobVisibleToUser userId now)

/-- C2: a job appears in the owner job listing iff it belongs to the
requesting user and either its status is PENDING or PROCESSING
(unconditionally), or its status is COMPLETED with a stamped expiry still
strictly in the future, or its status is FAILED with createdAt inside the
last hour; in particular a FAILED job older than one hour is excluded even
though it is still in the store. -/
theorem job_listing_visibility_rule (userId : String) (now : Int)
    (jobs : List DownloadJob) (job : DownloadJob) :
    job ∈ visibleJobs userId now jobs ↔
      job ∈ jobs ∧ job.userId = userId ∧
        (job.status = "PENDING" ∨ job.status = "PROCESSING" ∨
         (job.status = "COMPLETED" ∧ ∃ e, job.expiresAt = some e ∧ now < e) ∨
         (job.status = "FAILED" ∧ now - 60 * 60 * 1000 < job.createdAt)) := by
  rw [visibleJobs, List.mem_filter]
  refine and_congr_right fun _ => ?_
  unfold jobVisibleToUser
  by_cases hu : job.userId = userId
  · simp only [if_pos hu, hu]
    by_cases hp : job.status = "PENDING"
    · simp [hp]
    · by_cases hpr : job.status = "PROCESSING"
      · simp [hpr]
      · by_cases hcVal : job.status = "COMPLETED"
        · cases he : job.expiresAt with
          | none => simp [hp, hpr, hcVal, he]
          | some e =>
            by_cases hlt : now < e
            · simp [hp, hpr, hcVal, he, hlt]
            · simp [hp, hpr, hcVal, he, hlt]
        · by_cases hf : job.status = "FAILED"
          · by_cases hlt : now - 60 * 60 * 1000 < job.createdAt
            · simp [hp, hpr, hcVal, hf, hlt]
            · simp [hp, hpr, hcVal, hf, hlt]
          · simp [hp, hpr, hcVal, hf]
  · simp [hu]

/-- C10: a COMPLETED job that was never stamped with an expiresAt is
invisible in the owner listing, even to its owner. -/
theorem completed_job_without_expiry_invisible (userId : String) (now : Int)
    (job : DownloadJob) (hs : job.status = "COMPLETED") (he : job.expiresAt = none) :
    jobVisibleToUser userId now job = false := by
  unfold jobVisibleToUser
  rw [hs, he]
  simp

/-- Witness for C10: a concrete COMPLETED job with no expiry is invisible. -/
theorem completed_job_without_expiry_invisible_witness :
    jobVisibleToUser "user_1" 1000
      ⟨"user_1", "link_1", none, some "team_1", "COMPLETED", 0, none, some [], some []⟩
      = false :=
  completed_job_without_expiry_invisible "user_1" 1000
    ⟨"user_1", "link_1", none, some "team_1", "COMPLETED", 0, none, some [], some []⟩
    rfl rfl

/-! ## Parts-download endpoint and URL refresh on read paths
    (source: pages/api/ links download parts handler and jobs.ts refresh) -/

/-- JS falsiness of an optional string (undefined, null or empty). -/
def jsStrFalsy : Option String → Bool
  | none => true
  | some s => s.isEmpty

/-- Leading decimal digits of a character list, or none when there are no
digits at all (model of the digit-consuming core of JS parseInt). -/
def parseDigits (l : List Char) : Option Nat :=
  let ds := l.takeWhile (fun c => c.isDigit)
  if ds.isEmpty then none
  else some (ds.foldl (fun acc c => acc * 10 + (c.toNat - '0'.toNat)) 0)

/-- Model of JS parseInt(s, 10): skip leading whitespace, optional sign,
consume leading digits, NaN (none) when no digit is found; trailing
characters are ignored. -/
def parseIntJs (s : String) : Option Int :=
  match s.data.dropWhile (fun c => c.isWhitespace) with
  | '-' :: rest => (parseDigits rest).map (fun n => -(n : Int))
  | '+' :: rest => (parseDigits rest).map (fun n => (n : Int))
  | l => (parseDigits l).map (fun n => (n : Int))

/-- HTTP outcome of a pages-router handler: a plain status response or a
redirect. -/
inductive ApiResponse where
  | status (code : Nat) (msg : String)
  | redirect (code : Nat) (url : String)
deriving DecidableEq, Repr

/-- Inputs of the parts-download handler with its I/O dependencies resolved:
query parameters, whether a dataroom session was found, the viewer email of
the session's view, the job looked up in the store, and the outcome of
generateFreshPresignedUrl (none models a thrown error). -/
structure PartsRequestCtx where
  method : String
  linkId : Option String
  jobId : Option String
  partIndex : Option String
  sessionFound : Bool
  viewerEmail : Option String
  job : Option DownloadJob
  mint : String → S3KeyInfo → Option String

/-- Embedding of the parts-download handler: guards in source order, then
parseInt bounds checking, then fresh-presign with fallback to the stored
URL. -/
def partsDownloadHandler (ctx : PartsRequestCtx) : ApiResponse :=
  if ctx.method ≠ "GET" then .status 405 ("Method " ++ ctx.method ++ " Not Allowed")
  else if jsStrFalsy ctx.linkId || jsStrFalsy ctx.jobId || ctx.partIndex.isNone then
    .status 400 "linkId, jobId and partIndex required"
  else if ¬ ctx.sessionFound then .status 401 "Session required"
  else if jsStrFalsy ctx.viewerEmail then .status 403 "Viewer email not found"
  else
    match ctx.job with
    | none => .status 404 "Download job not found or expired"
    | some job =>
      if job.linkId ≠ ctx.linkId.getD "" ∨
          job.viewerEmail.map (fun e => e.toLower.trim) ≠
            ctx.viewerEmail.map (fun e => e.toLower.trim) then
        .status 403 "Job does not belong to this viewer"
      else if job.status ≠ "COMPLETED" ∨ (job.downloadUrls.getD []).isEmpty then
        .status 400 "Download not ready"
      else
        match parseIntJs (ctx.partIndex.getD "") with
        | none => .status 400 "Invalid part index"
        | some i =>
          if i < 0 ∨ ((job.downloadUrls.getD []).length : Int) ≤ i then
            .status 400 "Invalid part index"
          else
            match (job.downloadS3Keys.getD []).get? i.toNat, job.teamId with
            | some s3Key, some teamId =>
              if teamId.isEmpty then
                .redirect 302 ((job.downloadUrls.getD []).getD i.toNat "")
              else
                match ctx.mint teamId s3Key with
                | some freshUrl => .redirect 302 freshUrl
                | none => .redirect 302 ((job.downloadUrls.getD []).getD i.toNat "")
            | _, _ => .redirect 302 ((job.downloadUrls.getD []).getD i.toNat "")

/-- Sequential minting of fresh URLs for all stored keys (model of
Promise.all over generateFreshPresignedUrl; the first failure rejects the
whole batch). -/
def mintAllKeys (mint : S3KeyInfo → Option String) : List S3KeyInfo → Option (List String)
  | [] => some []
  | k :: ks =>
    match mint k, mintAllKeys mint ks with
    | some u, some us => some (u :: us)
    | _, _ => none

/-- Embedding of the per-job URL refresh of the owner job listing (jobs.ts
lines 79-99): COMPLETED jobs with stored keys and URLs get freshly minted
URLs; on any minting failure the job is returned unchanged. -/
def refreshJobUrls (mint : S3KeyInfo → Option String) (job : DownloadJob) : DownloadJob :=
  if job.status = "COMPLETED" ∧ ¬ (job.downloadS3Keys.getD []).isEmpty ∧
      ¬ (job.downloadUrls.getD []).isEmpty then
    match mintAllKeys mint (job.downloadS3Keys.getD []) with
    | some fresh => { job with downloadUrls := some fresh }
    | none => job
  else job

/-- The full owner-listing response: visibility filter then URL refresh. -/
def jobsListingResponse (mint : S3KeyInfo → Option String) (userId : String) (now : Int)
    (jobs : List DownloadJob) : List DownloadJob :=
  (visibleJobs userId now jobs).map (refreshJobUrls mint)

/-- C5: on a request that reaches the index check of the parts-download
endpoint (COMPLETED job with a non-empty downloadUrls list, all earlier
guards passing), a part index that is not a number, negative, or at least
downloadUrls.length yields a 400 response and never a redirect, so no
out-of-bounds access of the URL list occurs. -/
theorem parts_download_invalid_index_rejected (ctx : PartsRequestCtx) (job : DownloadJob)
    (hm : ctx.method = "GET")
    (hl : jsStrFalsy ctx.linkId = false)
    (hjid : jsStrFalsy ctx.jobId = false)
    (hpi : ctx.partIndex.isNone = false)
    (hs : ctx.sessionFound = true)
    (hv : jsStrFalsy ctx.viewerEmail = false)
    (hjob : ctx.job = some job)
    (hlink : job.linkId = ctx.linkId.getD "")
    (hmail : job.viewerEmail.map (fun e => e.toLower.trim) =
      ctx.viewerEmail.map (fun e => e.toLower.trim))
    (hst : job.status = "COMPLETED")
    (hne : (job.downloadUrls.getD []).isEmpty = false)
    (hbad : parseIntJs (ctx.partIndex.getD "") = none ∨
      ∃ i, parseIntJs (ctx.partIndex.getD "") = some i ∧
        (i < 0 ∨ ((job.downloadUrls.getD []).length : Int) ≤ i)) :
    partsDownloadHandler ctx = .status 400 "Invalid part index" ∧
    ∀ c u, partsDownloadHandler ctx ≠ .redirect c u := by
  have hmain : partsDownloadHandler ctx = .status 400 "Invalid part index" := by
    unfold partsDownloadHandler
    rw [if_neg (by simp [hm])]
    rw [if_neg (by simp [hl, hjid, hpi])]
    rw [if_neg (by simp [hs])]
    rw [if_neg (by simp [hv])]
    rw [hjob]
    show (if _ then _ else _) = _
    rw [if_neg (by simp [hlink, hmail])]
    rw [if_neg (by simp [hst, hne])]
    rcases hbad with hnone | ⟨i, hi, hrange⟩
    · rw [hnone]
    · rw [hi]
      show (if _ then _ else _) = _
      rw [if_pos hrange]
  exact ⟨hmain, fun c u hcontra => by
    rw [hmain] at hcontra
    exact ApiResponse.noConfusion hcontra⟩

/-- Witness for C5: a concrete request asking for part 7 of a completed job
with two stored URLs is answered 400. -/
theorem parts_download_invalid_index_rejected_witness :
    partsDownloadHandler
        ⟨"GET", some "lnk_1", some "job_1", some "7", true, some "a@b.com",
          some ⟨"user_1", "lnk_1", some "a@b.com", some "team_1", "COMPLETED", 0,
            some 99999, some ["https://u0", "https://u1"], some []⟩,
          fun _ _ => none⟩
      = .status 400 "Invalid part index" ∧
    ∀ c u,
      partsDownloadHandler
          ⟨"GET", some "lnk_1", some "job_1", some "7", true, some "a@b.com",
            some ⟨"user_1", "lnk_1", some "a@b.com", some "team_1", "COMPLETED", 0,
              some 99999, some ["https://u0", "https://u1"], some []⟩,
            fun _ _ => none⟩
        ≠ .redirect c u :=
  parts_download_invalid_index_rejected _
    ⟨"user_1", "lnk_1", some "a@b.com", some "team_1", "COMPLETED", 0,
      some 99999, some ["https://u0", "https://u1"], some []⟩
    rfl rfl rfl rfl rfl rfl rfl rfl rfl rfl rfl
    (Or.inr ⟨7, by decide, Or.inr (by decide)⟩)

/-- C6: both read paths that serve a download URL attempt re-minting first
and fall back to the stored URL when minting fails, without failing the
request: the parts endpoint redirects 302 to the fresh URL when minting
succeeds and 302 to the stored URL when it fails, the owner listing returns
a failing job unchanged (stored URLs), and the listing always returns every
visible job. -/
theorem read_paths_remint_then_fallback (ctx : PartsRequestCtx) (job : DownloadJob)
    (hm : ctx.method = "GET")
    (hl : jsStrFalsy ctx.linkId = false)
    (hjid : jsStrFalsy ctx.jobId = false)
    (hpi : ctx.partIndex.isNone = false)
    (hs : ctx.sessionFound = true)
    (hv : jsStrFalsy ctx.viewerEmail = false)
    (hjob : ctx.job = some job)
    (hlink : job.linkId = ctx.linkId.getD "")
    (hmail : job.viewerEmail.map (fun e => e.toLower.trim) =
      ctx.viewerEmail.map (fun e => e.toLower.trim))
    (hst : job.status = "COMPLETED")
    (hne : (job.downloadUrls.getD []).isEmpty = false)
    (i : Int)
    (hi : parseIntJs (ctx.partIndex.getD "") = some i)
    (hge : ¬ i < 0) (hlt : ¬ ((job.downloadUrls.getD []).length : Int) ≤ i)
    (s3Key : S3KeyInfo)
    (hkey : (job.downloadS3Keys.getD []).get? i.toNat = some s3Key)
    (teamId : String) (ht : job.teamId = some teamId) (htne : teamId.isEmpty = false) :
    (∀ u, ctx.mint teamId s3Key = some u → partsDownloadHandler ctx = .redirect 302 u) ∧
    (ctx.mint teamId s3Key = none →
      partsDownloadHandler ctx = .redirect 302 ((job.downloadUrls.getD []).getD i.toNat "")) ∧
    (∀ (mint : S3KeyInfo → Option String) (j : DownloadJob),
      mintAllKeys mint (j.downloadS3Keys.getD []) = none → refreshJobUrls mint j = j) ∧
    (∀ (mint : S3KeyInfo → Option String) (userId : String) (now : Int)
        (jobs : List DownloadJob),
      (jobsListingResponse mint userId now jobs).length =
        (visibleJobs userId now jobs).length) := by
  have hpre : ∀ r : Option String, ctx.mint teamId s3Key = r →
      partsDownloadHandler ctx =
        (match r with
         | some u => ApiResponse.redirect 302 u
         | none => ApiResponse.redirect 302 ((job.downloadUrls.getD []).getD i.toNat "")) := by
    intro r hr
    unfold partsDownloadHandler
    rw [if_neg (by simp [hm])]
    rw [if_neg (by simp [hl, hjid, hpi])]
    rw [if_neg (by simp [hs])]
    rw [if_neg (by simp [hv])]
    rw [hjob]
    show (if _ then _ else _) = _
    rw [if_neg (by simp [hlink, hmail])]
    rw [if_neg (by simp [hst, hne])]
    rw [hi]
    show (if _ then _ else _) = _
    rw [if_neg (by simp [hge, hlt])]
    rw [hkey, ht]
    show (if _ then _ else _) = _
    rw [if_neg (by simp [htne])]
    rw [hr]
  refine ⟨fun u hu => ?_, fun hnone => ?_, fun mint j hfail => ?_,
    fun mint userId now jobs => ?_⟩
  · simpa using hpre (some u) hu
  · simpa using hpre none hnone
  · unfold refreshJobUrls
    by_cases hc : j.status = "COMPLETED" ∧ ¬ (j.downloadS3Keys.getD []).isEmpty ∧
        ¬ (j.downloadUrls.getD []).isEmpty
    · rw [if_pos hc, hfail]
    · rw [if_neg hc]
  · unfold jobsListingResponse
    exact List.length_map _ _

/-- Witness for C6 at a concrete completed job with one stored URL and one
stored key. -/
theorem read_paths_remint_then_fallback_witness :
    (∀ u,
      (fun (_ : String) (_ : S3KeyInfo) => some "https://fresh") "team_1"
          (⟨"b".toList, "k".toList, "r".toList⟩ : S3KeyInfo) = some u →
      partsDownloadHandler
          ⟨"GET", some "lnk_2", some "job_2", some "0", true, some "a@b.com",
            some ⟨"user_1", "lnk_2", some "a@b.com", some "team_1", "COMPLETED", 0,
              some 99999, some ["https://s0"], some [⟨"b".toList, "k".toList, "r".toList⟩]⟩,
            fun _ _ => some "https://fresh"⟩
        = .redirect 302 u) ∧
    ((fun (_ : String) (_ : S3KeyInfo) => some "https://fresh") "team_1"
        (⟨"b".toList, "k".toList, "r".toList⟩ : S3KeyInfo) = none →
      partsDownloadHandler
          ⟨"GET", some "lnk_2", some "job_2", some "0", true, some "a@b.com",
            some ⟨"user_1", "lnk_2", some "a@b.com", some "team_1", "COMPLETED", 0,
              some 99999, some ["https://s0"], some [⟨"b".toList, "k".toList, "r".toList⟩]⟩,
            fun _ _ => some "https://fresh"⟩
        = .redirect 302
            (((⟨"user_1", "lnk_2", some "a@b.com", some "team_1", "COMPLETED", 0,
              some 99999, some ["https://s0"],
              some [⟨"b".toList, "k".toList, "r".toList⟩]⟩ :
                DownloadJob).downloadUrls.getD []).getD (0 : Int).toNat "")) ∧
    (∀ (mint : S3KeyInfo → Option String) (j : DownloadJob),
      mintAllKeys mint (j.downloadS3Keys.getD []) = none → refreshJobUrls mint j = j) ∧
    (∀ (mint : S3KeyInfo → Option String) (userId : String) (now : Int)
        (jobs : List DownloadJob),
      (jobsListingResponse mint userId now jobs).length =
        (visibleJobs userId now jobs).length) :=
  read_paths_remint_then_fallback
    ⟨"GET", some "lnk_2", some "job_2", some "0", true, some "a@b.com",
      some ⟨"user_1", "lnk_2", some "a@b.com", some "team_1", "COMPLETED", 0,
        some 99999, some ["https://s0"], some [⟨"b".toList, "k".toList, "r".toList⟩]⟩,
      fun _ _ => some "https://fresh"⟩
    ⟨"user_1", "lnk_2", some "a@b.com", some "team_1", "COMPLETED", 0,
      some 99999, some ["https://s0"], some [⟨"b".toList, "k".toList, "r".toList⟩]⟩
    rfl rfl rfl rfl rfl rfl rfl rfl rfl rfl rfl
    0 (by decide) (by decide) (by decide)
    ⟨"b".toList, "k".toList, "r".toList⟩ rfl
    "team_1" rfl rfl

/-! ## Download-batch endpoint: Lambda dispatch and response validation
    (source: pages/api internal download-batch handler) -/

/-- Parsed JSON body of a successful Lambda response. -/
structure LambdaBody where
  downloadUrl : Option String
deriving DecidableEq, Repr

/-- Decoded Lambda invocation payload: an errorMessage field marks a
backend-reported failure; body is the JSON-encoded success envelope (absent
models a payload whose body is missing, so JSON.parse throws). -/
structure LambdaPayload where
  errorMessage : Option String
  body : Option LambdaBody
deriving DecidableEq, Repr

/-- Request reaching the download-batch endpoint, with the body fields the
handler destructures (absent models undefined). -/
structure BatchRequest where
  method : String
  token : Option String
  teamId : Option String
  sourceBucket : Option String
  fileKeys : Option (List String)
  folderStructure : Option String
deriving DecidableEq, Repr

/-- Outcome of the download-batch handler: HTTP status, the message or
error details of the response, and whether the Lambda backend was invoked
before responding. -/
structure BatchOutcome where
  statusCode : Nat
  details : String
  invokedBackend : Bool
deriving DecidableEq, Repr

/-- Embedding of the download-batch handler: method and bearer-token guards,
required-parameter validation before any backend call, then Lambda
invocation with response validation (missing payload and backend
errorMessage both become thrown errors answered with 500 and the error
text). The lambdaResp parameter is the decoded payload of the invocation
(none models an undefined or empty Payload). -/
def downloadBatchHandler (apiKey : String) (req : BatchRequest)
    (lambdaResp : Option LambdaPayload) : BatchOutcome :=
  if req.method ≠ "POST" then ⟨405, "Method " ++ req.method ++ " Not Allowed", false⟩
  else if req.token ≠ some apiKey then ⟨401, "Unauthorized", false⟩
  else if jsStrFalsy req.teamId || jsStrFalsy req.sourceBucket || req.fileKeys.isNone ||
      jsStrFalsy req.folderStructure then
    ⟨400, "Missing required parameters", false⟩
  else
    match lambdaResp with
    | none => ⟨500, "Lambda response payload is undefined or empty", true⟩
    | some payload =>
      match payload.errorMessage with
      | some msg => ⟨500, "Lambda error: " ++ msg, true⟩
      | none =>
        match payload.body with
        | none => ⟨500, "Unexpected end of JSON input", true⟩
        | some body => ⟨200, body.downloadUrl.getD "", true⟩

/-- C8: the download-batch endpoint answers 500 with the backend message
(never 200) when the Lambda payload is missing or carries an errorMessage,
and rejects a request missing teamId, sourceBucket, fileKeys or
folderStructure with 400 before invoking the backend. -/
theorem download_batch_backend_error_and_validation (apiKey : String)
    (req : BatchRequest) (lambdaResp : Option LambdaPayload)
    (hm : req.method = "POST") (ht : req.token = some apiKey) :
    ((jsStrFalsy req.teamId || jsStrFalsy req.sourceBucket || req.fileKeys.isNone ||
        jsStrFalsy req.folderStructure) = true →
      downloadBatchHandler apiKey req lambdaResp =
        ⟨400, "Missing required parameters", false⟩) ∧
    ((jsStrFalsy req.teamId || jsStrFalsy req.sourceBucket || req.fileKeys.isNone ||
        jsStrFalsy req.folderStructure) = false →
      (lambdaResp = none →
        downloadBatchHandler apiKey req lambdaResp =
          ⟨500, "Lambda response payload is undefined or empty", true⟩) ∧
      (∀ payload msg, lambdaResp = some payload → payload.errorMessage = some msg →
        downloadBatchHandler apiKey req lambdaResp = ⟨500, "Lambda error: " ++ msg, true⟩ ∧
        (downloadBatchHandler apiKey req lambdaResp).statusCode ≠ 200)) := by
  have hguards : ∀ rest : BatchOutcome,
      (downloadBatchHandler apiKey req lambdaResp =
        if jsStrFalsy req.teamId || jsStrFalsy req.sourceBucket || req.fileKeys.isNone ||
            jsStrFalsy req.folderStructure then
          ⟨400, "Missing required parameters", false⟩
        else
          match lambdaResp with
          | none => ⟨500, "Lambda response payload is undefined or empty", true⟩
          | some payload =>
            match payload.errorMessage with
            | some msg => ⟨500, "Lambda error: " ++ msg, true⟩
            | none =>
              match payload.body with
              | none => ⟨500, "Unexpected end of JSON input", true⟩
              | some body => ⟨200, body.downloadUrl.getD "", true⟩) := by
    intro _
    unfold downloadBatchHandler
    rw [if_neg (by simp [hm]), if_neg (by simp [ht])]
  refine ⟨fun hmiss => ?_, fun hok => ⟨fun hnone => ?_, fun payload msg hp hmsg => ?_⟩⟩
  · rw [hguards ⟨0, "", false⟩, if_pos hmiss]
  · rw [hguards ⟨0, "", false⟩, hnone, if_neg (by simp [hok])]
  · have hres : downloadBatchHandler apiKey req lambdaResp =
        ⟨500, "Lambda error: " ++ msg, true⟩ := by
      rw [hguards ⟨0, "", false⟩, hp, if_neg (by simp [hok])]
      simp [hmsg]
    exact ⟨hres, by rw [hres]; simp⟩

/-- Witness for C8 at a concrete authorized request whose backend reports
an errorMessage. -/
theorem download_batch_backend_error_and_validation_witness :
    ((jsStrFalsy (some "team_1") || jsStrFalsy (some "bkt") ||
        (some ["f.pdf"] : Option (List String)).isNone || jsStrFalsy (some "root/")) = true →
      downloadBatchHandler "secret"
          ⟨"POST", some "secret", some "team_1", some "bkt", some ["f.pdf"], some "root/"⟩
          (some ⟨some "boom", none⟩) =
        ⟨400, "Missing required parameters", false⟩) ∧
    ((jsStrFalsy (some "team_1") || jsStrFalsy (some "bkt") ||
        (some ["f.pdf"] : Option (List String)).isNone || jsStrFalsy (some "root/")) = false →
      ((some ⟨some "boom", none⟩ : Option LambdaPayload) = none →
        downloadBatchHandler "secret"
            ⟨"POST", some "secret", some "team_1", some "bkt", some ["f.pdf"], some "root/"⟩
            (some ⟨some "boom", none⟩) =
          ⟨500, "Lambda response payload is undefined or empty", true⟩) ∧
      (∀ payload msg,
        (some ⟨some "boom", none⟩ : Option LambdaPayload) = some payload →
        payload.errorMessage = some msg →
        downloadBatchHandler "secret"
            ⟨"POST", some "secret", some "team_1", some "bkt", some ["f.pdf"], some "root/"⟩
            (some ⟨some "boom", none⟩) = ⟨500, "Lambda error: " ++ msg, true⟩ ∧
        (downloadBatchHandler "secret"
            ⟨"POST", some "secret", some "team_1", some "bkt", some ["f.pdf"], some "root/"⟩
            (some ⟨some "boom", none⟩)).statusCode ≠ 200)) :=
  download_batch_backend_error_and_validation "secret"
    ⟨"POST", some "secret", some "team_1", some "bkt", some ["f.pdf"], some "root/"⟩
    (some ⟨some "boom", none⟩) rfl rfl

/-! ## Fire-time notification task
    (source: lib/trigger/dataroom-upload-notification.ts) -/

/-- A userTeam row joined with the user email, as selected by the task. -/
structure TeamMember where
  role : String
  memberStatus : String
  email : Option String
deriving DecidableEq, Repr

/-- A recent documentUpload row joined with the viewer email. -/
structure UploadRecord where
  originalFilename : Option String
  uploaderEmail : Option String
deriving DecidableEq, Repr

/-- Resolved inputs of the task run: uploads in the ten-minute lookback,
the dataroom name lookup, the link name lookup, and the full userTeam
table of the team (the role/status query filter is applied in the model). -/
structure NotifyTaskEnv where
  recentUploads : List UploadRecord
  dataroomName : Option String
  linkName : Option String
  members : List TeamMember
deriving Repr

/-- Outcome of one task run: either an early return (with its log reason)
or an attempted send carrying the resolved primary recipient. The task
throws in none of these paths. -/
inductive NotifyOutcome where
  | noRecentUploads
  | dataroomNotFound
  | noAdminEmail
  | sendAttempted (ownerEmail : String)
deriving DecidableEq, Repr

/-- The prisma query filter of the task: active members with the ADMIN or
MANAGER role. -/
def eligibleMembers (members : List TeamMember) : List TeamMember :=
  members.filter (fun m => (m.role = "ADMIN" || m.role = "MANAGER") &&
    m.memberStatus = "ACTIVE")

/-- Embedding of `users.find((user) => user.role === "ADMIN")?.user.email`:
the email of the first active ADMIN, which may itself be absent. -/
def adminEmailOf (members : List TeamMember) : Option String :=
  ((eligibleMembers members).find? (fun m => m.role = "ADMIN")).bind (fun m => m.email)

/-- Embedding of the run body of sendDataroomUploadNotificationTask up to
the send decision: empty lookback, missing dataroom and missing admin email
each log and return without sending. -/
def runUploadNotificationTask (env : NotifyTaskEnv) : NotifyOutcome :=
  if env.recentUploads.isEmpty then .noRecentUploads
  else if env.dataroomName.isNone then .dataroomNotFound
  else
    match adminEmailOf env.members with
    | none => .noAdminEmail
    | some ownerEmail => .sendAttempted ownerEmail

/-- C9: when no active ADMIN team member has a resolvable email, the fired
notification task logs and returns without sending: the run ends in the
noAdminEmail outcome (a normal return, not a thrown error) and no send is
attempted. -/
theorem notification_task_no_admin_silent_noop (env : NotifyTaskEnv)
    (hu : env.recentUploads ≠ []) (hd : env.dataroomName.isSome)
    (hadmin : ∀ m ∈ env.members,
      m.role = "ADMIN" → m.memberStatus = "ACTIVE" → m.email = none) :
    runUploadNotificationTask env = .noAdminEmail ∧
    ∀ e, runUploadNotificationTask env ≠ .sendAttempted e := by
  have hd2 : env.dataroomName.isNone = false := by
    rcases Option.isSome_iff_exists.mp hd with ⟨v, hv⟩
    rw [hv]
    rfl
  have hmain : runUploadNotificationTask env = .noAdminEmail := by
    unfold runUploadNotificationTask
    rw [if_neg (by simp [hu]), if_neg (by simp [hd2])]
    have hfind : ∀ m, (eligibleMembers env.members).find? (fun m => m.role = "ADMIN")
        = some m → m.email = none := by
      intro m hm
      have hmem : m ∈ eligibleMembers env.members := List.mem_of_find?_eq_some hm
      have hrole := List.find?_some hm
      have hmem2 : m ∈ env.members ∧
          ((m.role = "ADMIN" || m.role = "MANAGER") && m.memberStatus = "ACTIVE") = true :=
        List.mem_filter.mp hmem
      have hrole2 : m.role = "ADMIN" := by simpa using hrole
      have hstatus : m.memberStatus = "ACTIVE" := by
        have := hmem2.2
        simp at this
        exact this.2
      exact hadmin m hmem2.1 hrole2 hstatus
    unfold adminEmailOf
    cases hf : (eligibleMembers env.members).find? (fun m => m.role = "ADMIN") with
    | none => rfl
    | some m => simp [hfind m hf]
  exact ⟨hmain, fun e hcontra => by
    rw [hmain] at hcontra
    exact NotifyOutcome.noConfusion hcontra⟩

/-- Witness for C9: one upload, dataroom present, a single active ADMIN with
no email: the run is a silent no-op. -/
theorem notification_task_no_admin_silent_noop_witness :
    runUploadNotificationTask
        ⟨[⟨some "f.pdf", some "v@x.com"⟩], some "Dataroom", some "Link",
          [⟨"ADMIN", "ACTIVE", none⟩, ⟨"MANAGER", "ACTIVE", some "m@x.com"⟩]⟩
      = .noAdminEmail ∧
    ∀ e,
      runUploadNotificationTask
          ⟨[⟨some "f.pdf", some "v@x.com"⟩], some "Dataroom", some "Link",
            [⟨"ADMIN", "ACTIVE", none⟩, ⟨"MANAGER", "ACTIVE", some "m@x.com"⟩]⟩
        ≠ .sendAttempted e :=
  notification_task_no_admin_silent_noop
    ⟨[⟨some "f.pdf", some "v@x.com"⟩], some "Dataroom", some "Link",
      [⟨"ADMIN", "ACTIVE", none⟩, ⟨"MANAGER", "ACTIVE", some "m@x.com"⟩]⟩
    (by simp) rfl
    (by
      intro m hm hrole hstatus
      rcases List.mem_cons.mp hm with h1 | h2
      · rw [h1]
      · rcases List.mem_cons.mp h2 with h3 | h4
        · rw [h3] at hrole
          exact absurd hrole (by decide)
        · exact absurd h4 (List.not_mem_nil m))

/-! ## Office-to-PDF conversion with DOCX sanitize-and-retry fallback
    (source: lib/trigger/convert-files.ts) -/

/-- HTTP response of the conversion backend as the task inspects it: the ok
flag, the status code, and the message the task would extract from the body
on failure. A thrown fetch (timeout, unreachable) is converted by the task
itself into a synthetic non-ok 504 response, so the primary response is
always present. -/
structure ConversionResp where
  ok : Bool
  statusCode : Nat
  message : String
deriving DecidableEq, Repr

/-- The DOCX content type that triggers the sanitization fallback. -/
def docxContentType : String :=
  "application/vnd.openxmlformats-officedocument.wordprocessingml.document"

/-- Steps the conversion task performs that matter to the fallback policy. -/
inductive ConvStep where
  | primaryConversion
  | sanitizePass
  | retryConversion
deriving DecidableEq, Repr

/-- Resolved I/O of the DOCX fallback path: whether fetching the original
file for sanitization succeeded (including its content-type validation),
and the response of the retried conversion (none models a thrown
timeout). -/
structure DocxFallbackEnv where
  fetchDocxOk : Bool
  retryResp : Option ConversionResp
deriving DecidableEq, Repr

/-- Embedding of the conversion control flow of convertFilesToPdfTask after
the primary backend call: on a non-ok primary response, only the DOCX
content type enters the sanitize-then-retry path (one sanitizer pass, one
retried conversion, throwing if the retry also fails); every other content
type throws immediately. Returns the ordered list of performed steps and
the final outcome (ok, or error with the thrown message). -/
def convertFlow (contentType : String) (primary : ConversionResp)
    (env : DocxFallbackEnv) : List ConvStep × Except String Unit :=
  if primary.ok then ([.primaryConversion], .ok ())
  else if contentType = docxContentType then
    if ¬ env.fetchDocxOk then
      ([.primaryConversion],
       .error "Failed to fetch DOCX from signed URL for sanitization")
    else
      match env.retryResp with
      | none =>
        ([.primaryConversion, .sanitizePass, .retryConversion],
         .error "Conversion timed out after sanitization")
      | some retry =>
        if retry.ok then
          ([.primaryConversion, .sanitizePass, .retryConversion], .ok ())
        else
          ([.primaryConversion, .sanitizePass, .retryConversion],
           .error ("Conversion failed after sanitization: " ++ retry.message))
  else
    ([.primaryConversion], .error ("Conversion failed: " ++ primary.message))

/-- C7: when the primary conversion fails on a DOCX document (and the file
can be fetched for sanitization), exactly one sanitization pass and exactly
one retried conversion are performed, and a failed retry makes the task
throw; for any other content type the task throws immediately with no
sanitization and no retry. -/
theorem docx_sanitize_retry_once (contentType : String) (primary : ConversionResp)
    (env : DocxFallbackEnv) (hfail : primary.ok = false) :
    (contentType = docxContentType → env.fetchDocxOk = true →
      ((convertFlow contentType primary env).1.count ConvStep.sanitizePass = 1 ∧
       (convertFlow contentType primary env).1.count ConvStep.retryConversion = 1 ∧
       (∀ retry, env.retryResp = some retry → retry.ok = false →
         (convertFlow contentType primary env).2 =
           .error ("Conversion failed after sanitization: " ++ retry.message)) ∧
       (env.retryResp = none →
         (convertFlow contentType primary env).2 =
           .error "Conversion timed out after sanitization"))) ∧
    (contentType ≠ docxContentType →
      (convertFlow contentType primary env).1.count ConvStep.sanitizePass = 0 ∧
      (convertFlow contentType primary env).1.count ConvStep.retryConversion = 0 ∧
      (convertFlow contentType primary env).2 =
        .error ("Conversion failed: " ++ primary.message)) := by
  constructor
  · intro hdocx hfetch
    cases hr : env.retryResp with
    | none =>
      have hflow : convertFlow contentType primary env =
          ([.primaryConversion, .sanitizePass, .retryConversion],
           .error "Conversion timed out after sanitization") := by
        unfold convertFlow
        rw [if_neg (by simp [hfail]), if_pos hdocx, if_neg (by simp [hfetch]), hr]
      refine ⟨by rw [hflow]; rfl, by rw [hflow]; rfl, ?_, fun _ => by rw [hflow]⟩
      intro retry hretry
      exact Option.noConfusion hretry
    | some retry =>
      by_cases hok : retry.ok = true
      · have hflow : convertFlow contentType primary env =
            ([.primaryConversion, .sanitizePass, .retryConversion], .ok ()) := by
          unfold convertFlow
          rw [if_neg (by simp [hfail]), if_pos hdocx, if_neg (by simp [hfetch]), hr]
          show (if retry.ok = true then _ else _) = _
          rw [if_pos hok]
        refine ⟨by rw [hflow]; rfl, by rw [hflow]; rfl, ?_,
          fun hnone => Option.noConfusion hnone⟩
        intro retry₂ hretry₂ hbad
        have heq := Option.some.inj hretry₂
        rw [← heq, hok] at hbad
        exact Bool.noConfusion hbad
      · have hflow : convertFlow contentType primary env =
            ([.primaryConversion, .sanitizePass, .retryConversion],
             .error ("Conversion failed after sanitization: " ++ retry.message)) := by
          unfold convertFlow
          rw [if_neg (by simp [hfail]), if_pos hdocx, if_neg (by simp [hfetch]), hr]
          show (if retry.ok = true then _ else _) = _
          rw [if_neg hok]
        refine ⟨by rw [hflow]; rfl, by rw [hflow]; rfl, ?_,
          fun hnone => Option.noConfusion hnone⟩
        intro retry₂ hretry₂ _
        have heq := Option.some.inj hretry₂
        rw [hflow, ← heq]
  · intro hother
    have hflow : convertFlow contentType primary env =
        ([.primaryConversion], .error ("Conversion failed: " ++ primary.message)) := by
      unfold convertFlow
      rw [if_neg (by simp [hfail]), if_neg hother]
    exact ⟨by rw [hflow]; rfl, by rw [hflow]; rfl, by rw [hflow]⟩

/-- Witness for C7: a failed primary DOCX conversion whose retry also fails
performs one sanitize pass and one retry and ends in the thrown error. -/
theorem docx_sanitize_retry_once_witness :
    ((docxContentType = docxContentType →
      (true : Bool) = true →
      ((convertFlow docxContentType ⟨false, 504, "upstream"⟩
          ⟨true, some ⟨false, 500, "bad zip"⟩⟩).1.count ConvStep.sanitizePass = 1 ∧
       (convertFlow docxContentType ⟨false, 504, "upstream"⟩
          ⟨true, some ⟨false, 500, "bad zip"⟩⟩).1.count ConvStep.retryConversion = 1 ∧
       (∀ retry,
         (some (⟨false, 500, "bad zip"⟩ : ConversionResp) : Option ConversionResp)
             = some retry →
           retry.ok = false →
           (convertFlow docxContentType ⟨false, 504, "upstream"⟩
              ⟨true, some ⟨false, 500, "bad zip"⟩⟩).2 =
             .error ("Conversion failed after sanitization: " ++ retry.message)) ∧
       ((some (⟨false, 500, "bad zip"⟩ : ConversionResp) : Option ConversionResp) = none →
         (convertFlow docxContentType ⟨false, 504, "upstream"⟩
            ⟨true, some ⟨false, 500, "bad zip"⟩⟩).2 =
           .error "Conversion timed out after sanitization"))) ∧
    (docxContentType ≠ docxContentType →
      (convertFlow docxContentType ⟨false, 504, "upstream"⟩
         ⟨true, some ⟨false, 500, "bad zip"⟩⟩).1.count ConvStep.sanitizePass = 0 ∧
      (convertFlow docxContentType ⟨false, 504, "upstream"⟩
         ⟨true, some ⟨false, 500, "bad zip"⟩⟩).1.count ConvStep.retryConversion = 0 ∧
      (convertFlow docxContentType ⟨false, 504, "upstream"⟩
         ⟨true, some ⟨false, 500, "bad zip"⟩⟩).2 =
        .error ("Conversion failed: " ++ "upstream"))) :=
  docx_sanitize_retry_once docxContentType ⟨false, 504, "upstream"⟩
    ⟨true, some ⟨false, 500, "bad zip"⟩⟩ rfl

/-! ## Notification debouncer: tag-scoped cancel and delayed reschedule
    (source: app/(ee)/api/links/[id]/upload/route.ts lines 156-204) -/

theorem string_eq_of_data_eq {a b : String} (h : a.data = b.data) : a = b := by
  cases a
  cases b
  simpa using congrArg String.mk h

theorem string_append_cancel_left {p a b : String} (h : p ++ a = p ++ b) : a = b := by
  have hd : p.data ++ a.data = p.data ++ b.data := by
    rw [← String.data_append, ← String.data_append, h]
  exact string_eq_of_data_eq (List.append_cancel_left hd)

/-- Injectivity of separator-terminated encoding: two separator-free pieces
followed by the separator can be recovered unambiguously. -/
theorem append_sep_inj {sep : Char} :
    ∀ {a b xs ys : List Char}, sep ∉ a → sep ∉ b →
      a ++ sep :: xs = b ++ sep :: ys → a = b ∧ xs = ys := by
  intro a
  induction a with
  | nil =>
    intro b xs ys _ hb h
    cases b with
    | nil => simpa using h
    | cons c b₂ =>
      simp only [List.nil_append, List.cons_append, List.cons.injEq] at h
      exact absurd (h.1 ▸ List.mem_cons_self c b₂) hb
  | cons c a₂ ih =>
    intro b xs ys ha hb h
    cases b with
    | nil =>
      simp only [List.cons_append, List.nil_append, List.cons.injEq] at h
      exact absurd (h.1.symm ▸ List.mem_cons_self c a₂) ha
    | cons c₂ b₂ =>
      simp only [List.cons_append, List.cons.injEq] at h
      have ha₂ : sep ∉ a₂ := fun hm => ha (List.mem_cons_of_mem c hm)
      have hb₂ : sep ∉ b₂ := fun hm => hb (List.mem_cons_of_mem c₂ hm)
      obtain ⟨heq, hrest⟩ := ih ha₂ hb₂ h.2
      exact ⟨by rw [h.1, heq], hrest⟩

/-- A run known to the trigger.dev scheduler, with the fields the debouncer
queries: task identifier, run state, attached tags, and creation time
(epoch ms) for the ten-minute period filter of runs.list. -/
structure ScheduledRun where
  runId : String
  taskIdentifier : String
  runStatus : String
  tags : List String
  queuedAt : Int
deriving DecidableEq, Repr

/-- The three tags every qualifying pending notification for this
correlation must carry (route.ts requiredTags). -/
def requiredTags (dataroomId linkId viewerId : String) : List String :=
  ["dataroom_" ++ dataroomId, "link_" ++ linkId, "viewer_" ++ viewerId]

/-- The four tags attached when the replacement trigger is scheduled
(route.ts trigger options). -/
def scheduleTags (teamId dataroomId linkId viewerId : String) : List String :=
  ["team_" ++ teamId, "dataroom_" ++ dataroomId, "link_" ++ linkId,
   "viewer_" ++ viewerId]

/-- Embedding of the runs.list query: task identifier, DELAYED or QUEUED
state, created within the last ten minutes, and OR semantics across the
queried tags (a run matches when ANY queried tag is among its tags). -/
def runsListQuery (allRuns : List ScheduledRun) (now : Int) (tagQuery : List String) :
    List ScheduledRun :=
  allRuns.filter (fun r =>
    r.taskIdentifier = "send-dataroom-upload-notification" &&
    (r.runStatus = "DELAYED" || r.runStatus = "QUEUED") &&
    now - 10 * 60 * 1000 ≤ r.queuedAt &&
    tagQuery.any (fun t => r.tags.contains t))

/-- Embedding of the client-side post-filter: of the OR-matched runs, keep
only those carrying ALL required tags; these are the runs the handler
cancels. -/
def cancelledRuns (allRuns : List ScheduledRun) (now : Int)
    (dataroomId linkId viewerId : String) : List ScheduledRun :=
  (runsListQuery allRuns now (requiredTags dataroomId linkId viewerId)).filter
    (fun r => (requiredTags dataroomId linkId viewerId).all (fun t => r.tags.contains t))

/-- Options of the replacement trigger scheduled after cancellation. -/
structure TriggerOptions where
  idempotencyKey : String
  tags : List String
  delayMs : Int
deriving DecidableEq, Repr

/-- The idempotency key attached to the replacement trigger (route.ts line
190). -/
def uploadIdempotencyKey (teamId dataroomId linkId viewerId documentId : String) : String :=
  "upload-notification-" ++ teamId ++ "-" ++ dataroomId ++ "-" ++ linkId ++ "-" ++
    viewerId ++ "-" ++ documentId

/-- One debouncer step of the upload route when notification is enabled:
cancel every pending run matching all three required tags, then schedule
exactly one replacement trigger delayed five minutes from now. -/
structure DebounceStep where
  cancelled : List ScheduledRun
  scheduled : List TriggerOptions
deriving Repr

def debounceUploadEvent (allRuns : List ScheduledRun) (now : Int)
    (teamId dataroomId linkId viewerId newDataroomDocumentId : String) : DebounceStep :=
  { cancelled := cancelledRuns allRuns now dataroomId linkId viewerId,
    scheduled := [{
      idempotencyKey :=
        uploadIdempotencyKey teamId dataroomId linkId viewerId newDataroomDocumentId,
      tags := scheduleTags teamId dataroomId linkId viewerId,
      delayMs := now + 5 * 60 * 1000 }] }

theorem uploadIdempotencyKey_data (t d l v doc : String) :
    (uploadIdempotencyKey t d l v doc).data =
      "upload-notification-".data ++
        (t.data ++ '-' :: (d.data ++ '-' :: (l.data ++ '-' :: (v.data ++ '-' :: doc.data)))) := by
  show ("upload-notification-" ++ t ++ "-" ++ d ++ "-" ++ l ++ "-" ++ v ++ "-" ++ doc).data = _
  simp only [String.data_append, List.append_assoc]
  rfl

theorem string_head_clash {s t : String} {c₁ c₂ : Char}
    (hs : s.data.head? = some c₁) (ht : t.data.head? = some c₂) (hcc : c₁ ≠ c₂) :
    s ≠ t := by
  intro he
  rw [he, ht] at hs
  exact hcc (Option.some.inj hs).symm

/-- C3: a pending (DELAYED or QUEUED, in-period) notification run is
cancelled by the debouncer if and only if its tag set contains all three
required tags for the event's correlation; since the OR-semantics query is
post-filtered, a run matching only some tags is never cancelled, and a run
tagged for a different correlation (different dataroom, link or viewer) is
never cancelled by this event. -/
theorem debouncer_cancels_exact_tag_matches (allRuns : List ScheduledRun) (now : Int)
    (d l v : String) (r : ScheduledRun) :
    (r ∈ cancelledRuns allRuns now d l v ↔
      r ∈ allRuns ∧ r.taskIdentifier = "send-dataroom-upload-notification" ∧
        (r.runStatus = "DELAYED" ∨ r.runStatus = "QUEUED") ∧
        now - 10 * 60 * 1000 ≤ r.queuedAt ∧
        ∀ t ∈ requiredTags d l v, t ∈ r.tags) ∧
    (∀ teamId d₂ l₂ v₂, r.tags = scheduleTags teamId d₂ l₂ v₂ →
      r ∈ cancelledRuns allRuns now d l v → d = d₂ ∧ l = l₂ ∧ v = v₂) := by
  have hD : ∀ x : String, ("dataroom_" ++ x).data.head? = some 'd' := fun x => by
    rw [String.data_append]
    rfl
  have hT : ∀ x : String, ("team_" ++ x).data.head? = some 't' := fun x => by
    rw [String.data_append]
    rfl
  have hL : ∀ x : String, ("link_" ++ x).data.head? = some 'l' := fun x => by
    rw [String.data_append]
    rfl
  have hV : ∀ x : String, ("viewer_" ++ x).data.head? = some 'v' := fun x => by
    rw [String.data_append]
    rfl
  have hmain : r ∈ cancelledRuns allRuns now d l v ↔
      r ∈ allRuns ∧ r.taskIdentifier = "send-dataroom-upload-notification" ∧
        (r.runStatus = "DELAYED" ∨ r.runStatus = "QUEUED") ∧
        now - 10 * 60 * 1000 ≤ r.queuedAt ∧
        ∀ t ∈ requiredTags d l v, t ∈ r.tags := by
    unfold cancelledRuns runsListQuery
    simp [List.mem_filter, requiredTags]
    tauto
  refine ⟨hmain, fun teamId d₂ l₂ v₂ htags hmem => ?_⟩
  obtain ⟨-, -, -, -, hall⟩ := hmain.mp hmem
  rw [htags] at hall
  have hd : ("dataroom_" ++ d : String) ∈ scheduleTags teamId d₂ l₂ v₂ :=
    hall _ (by simp [requiredTags])
  have hl : ("link_" ++ l : String) ∈ scheduleTags teamId d₂ l₂ v₂ :=
    hall _ (by simp [requiredTags])
  have hv : ("viewer_" ++ v : String) ∈ scheduleTags teamId d₂ l₂ v₂ :=
    hall _ (by simp [requiredTags])
  refine ⟨?_, ?_, ?_⟩
  · rcases (by simpa [scheduleTags] using hd :
        ("dataroom_" ++ d : String) = "team_" ++ teamId ∨
        ("dataroom_" ++ d : String) = "dataroom_" ++ d₂ ∨
        ("dataroom_" ++ d : String) = "link_" ++ l₂ ∨
        ("dataroom_" ++ d : String) = "viewer_" ++ v₂) with h | h | h | h
    · exact absurd h (string_head_clash (hD d) (hT teamId) (by decide))
    · exact string_append_cancel_left h
    · exact absurd h (string_head_clash (hD d) (hL l₂) (by decide))
    · exact absurd h (string_head_clash (hD d) (hV v₂) (by decide))
  · rcases (by simpa [scheduleTags] using hl :
        ("link_" ++ l : String) = "team_" ++ teamId ∨
        ("link_" ++ l : String) = "dataroom_" ++ d₂ ∨
        ("link_" ++ l : String) = "link_" ++ l₂ ∨
        ("link_" ++ l : String) = "viewer_" ++ v₂) with h | h | h | h
    · exact absurd h (string_head_clash (hL l) (hT teamId) (by decide))
    · exact absurd h (string_head_clash (hL l) (hD d₂) (by decide))
    · exact string_append_cancel_left h
    · exact absurd h (string_head_clash (hL l) (hV v₂) (by decide))
  · rcases (by simpa [scheduleTags] using hv :
        ("viewer_" ++ v : String) = "team_" ++ teamId ∨
        ("viewer_" ++ v : String) = "dataroom_" ++ d₂ ∨
        ("viewer_" ++ v : String) = "link_" ++ l₂ ∨
        ("viewer_" ++ v : String) = "viewer_" ++ v₂) with h | h | h | h
    · exact absurd h (string_head_clash (hV v) (hT teamId) (by decide))
    · exact absurd h (string_head_clash (hV v) (hD d₂) (by decide))
    · exact absurd h (string_head_clash (hV v) (hL l₂) (by decide))
    · exact string_append_cancel_left h

/-- C4: after cancelling the matching pending runs, the debouncer schedules
exactly one replacement trigger, delayed exactly five minutes from now, and
its idempotency key determines (and is determined by) the (team, dataroom,
link, viewer, latest uploaded dataroom-document) combination, so racing
duplicate schedules collapse onto one idempotency key. Key uniqueness is
stated for hyphen-free identifiers (the database ids interpolated into the
hyphen-separated key). -/
theorem debouncer_schedules_one_idempotent_trigger (allRuns : List ScheduledRun)
    (now : Int) (t₁ d₁ l₁ v₁ doc₁ t₂ d₂ l₂ v₂ doc₂ : String)
    (ht₁ : '-' ∉ t₁.data) (hd₁ : '-' ∉ d₁.data) (hl₁ : '-' ∉ l₁.data)
    (hv₁ : '-' ∉ v₁.data) (ht₂ : '-' ∉ t₂.data) (hd₂ : '-' ∉ d₂.data)
    (hl₂ : '-' ∉ l₂.data) (hv₂ : '-' ∉ v₂.data) :
    (debounceUploadEvent allRuns now t₁ d₁ l₁ v₁ doc₁).scheduled.length = 1 ∧
    (∀ trig ∈ (debounceUploadEvent allRuns now t₁ d₁ l₁ v₁ doc₁).scheduled,
      trig.delayMs = now + 5 * 60 * 1000 ∧
      trig.idempotencyKey = uploadIdempotencyKey t₁ d₁ l₁ v₁ doc₁) ∧
    (uploadIdempotencyKey t₁ d₁ l₁ v₁ doc₁ = uploadIdempotencyKey t₂ d₂ l₂ v₂ doc₂ ↔
      (t₁ = t₂ ∧ d₁ = d₂ ∧ l₁ = l₂ ∧ v₁ = v₂ ∧ doc₁ = doc₂)) := by
  refine ⟨rfl, ?_, ?_, ?_⟩
  · intro trig htrig
    have : trig = {
        idempotencyKey := uploadIdempotencyKey t₁ d₁ l₁ v₁ doc₁,
        tags := scheduleTags t₁ d₁ l₁ v₁,
        delayMs := now + 5 * 60 * 1000 } := by
      simpa [debounceUploadEvent] using htrig
    rw [this]
    exact ⟨rfl, rfl⟩
  · intro h
    have hdata := congrArg String.data h
    rw [uploadIdempotencyKey_data, uploadIdempotencyKey_data] at hdata
    have h₁ := List.append_cancel_left hdata
    obtain ⟨heqt, h₂⟩ := append_sep_inj ht₁ ht₂ h₁
    obtain ⟨heqd, h₃⟩ := append_sep_inj hd₁ hd₂ h₂
    obtain ⟨heql, h₄⟩ := append_sep_inj hl₁ hl₂ h₃
    obtain ⟨heqv, h₅⟩ := append_sep_inj hv₁ hv₂ h₄
    exact ⟨string_eq_of_data_eq heqt, string_eq_of_data_eq heqd,
      string_eq_of_data_eq heql, string_eq_of_data_eq heqv,
      string_eq_of_data_eq h₅⟩
  · rintro ⟨rfl, rfl, rfl, rfl, rfl⟩
    rfl

/-- Witness for C4 at concrete cuid-style identifiers. -/
theorem debouncer_schedules_one_idempotent_trigger_witness :
    (debounceUploadEvent [] 0 "team1" "dr1" "lnk1" "vw1" "docA").scheduled.length = 1 ∧
    (∀ trig ∈ (debounceUploadEvent [] 0 "team1" "dr1" "lnk1" "vw1" "docA").scheduled,
      trig.delayMs = 0 + 5 * 60 * 1000 ∧
      trig.idempotencyKey = uploadIdempotencyKey "team1" "dr1" "lnk1" "vw1" "docA") ∧
    (uploadIdempotencyKey "team1" "dr1" "lnk1" "vw1" "docA" =
        uploadIdempotencyKey "team2" "dr1" "lnk1" "vw1" "docA" ↔
      ("team1" = "team2" ∧ "dr1" = "dr1" ∧ "lnk1" = "lnk1" ∧ "vw1" = "vw1" ∧
        "docA" = "docA")) :=
  debouncer_schedules_one_idempotent_trigger [] 0 "team1" "dr1" "lnk1" "vw1" "docA"
    "team2" "dr1" "lnk1" "vw1" "docA"
    (by decide) (by decide) (by decide) (by decide) (by decide) (by decide)
    (by decide) (by decide)
